import Mathlib

/-!
Shallow embedding of the persistence layer of the Registro-Lecturas
application (src/modelo.py, src/controlador.py) together with proofs of
the specification's claims.

The SQLite tables are modelled as Lean lists of rows; each model method
becomes a pure Lean function on those lists.  `CURRENT_TIMESTAMP` and
`datetime.now()` are modelled by explicit parameters.  SQL `LIKE` is
modelled by an executable pattern matcher (`likeMatch`) with SQLite's
ASCII-only case folding, and Python's `json.dumps` / `json.loads` on the
flat string-to-string preference maps used by the application are
modelled by an executable serializer / parser pair.
-/

namespace Registro

/-- ASCII lower-casing, as SQLite's `LIKE` applies it (`Char.toLower`
only folds `A`–`Z`, matching SQLite's ASCII-only case insensitivity). -/
def lowerChars (s : List Char) : List Char :=
  s.map Char.toLower

/-- SQLite `LIKE` pattern matching over characters: `%` matches any
(possibly empty) sequence, `_` matches exactly one character, any other
pattern character matches case-insensitively (ASCII folding). -/
def likeMatch : List Char → List Char → Bool
  | [], s => s.isEmpty
  | p :: ps, [] => p == '%' && likeMatch ps []
  | p :: ps, c :: s =>
    if p = '%' then likeMatch ps (c :: s) || likeMatch (p :: ps) s
    else if p = '_' then likeMatch ps s
    else p.toLower == c.toLower && likeMatch ps s
termination_by ps s => ps.length + s.length

/-- `beginsWith n h` holds when `n` is an initial segment of `h`. -/
def beginsWith : List Char → List Char → Bool
  | [], _ => true
  | _ :: _, [] => false
  | a :: as, b :: bs => a == b && beginsWith as bs

/-- `containsSub n h` holds when `n` occurs contiguously inside `h`;
applied to lower-cased strings it is the "case-insensitive substring"
relation the specification ascribes to the `search` filter. -/
def containsSub (needle : List Char) : List Char → Bool
  | [] => needle.isEmpty
  | c :: rest => beginsWith needle (c :: rest) || containsSub needle rest

/-- A row of the `libros` table.  Column types follow the schema in
`DatabaseManager._initialize_database`: `fecha_lectura` is stored as the
ISO date text produced by `datetime.now().date().isoformat()`,
`calificacion` is a REAL (modelled by `Rat`). -/
structure Libro where
  id : Int
  titulo : String
  autor : String
  genero : String
  subgenero : String
  anio_lectura : Int
  fecha_lectura : String
  calificacion : Rat
  paginas : Int
  editorial : String
  comentario : String
  fecha_creacion : String
  fecha_actualizacion : String
deriving DecidableEq, Repr

/-- A value occurring in a Python filter dictionary (`filtros`). -/
inductive FVal where
  | int (n : Int)
  | rat (q : Rat)
  | str (s : String)
deriving DecidableEq, Repr

/-- A SQL `WHERE` condition produced by the filter loop of
`LibroModel.obtener_libros`; `search` carries the already-interpolated
`LIKE` pattern `%value%`. -/
inductive Cond where
  | anioEq (v : FVal)
  | generoEq (v : FVal)
  | califMin (v : FVal)
  | califMax (v : FVal)
  | search (pat : String)
deriving DecidableEq, Repr

/-- Python `f-string` rendering of a filter value, used only to build the
`LIKE` pattern; the application always passes a string here. -/
def fvalStr : FVal → String
  | .str s => s
  | .int n => toString n
  | .rat q => toString q

/-- The condition-building loop of `obtener_libros`: each supported key
appends one condition (`search` appends the `LIKE` pattern `%value%`);
any other key appends nothing. -/
def buildConds : List (String × FVal) → List Cond
  | [] => []
  | (k, v) :: rest =>
    (if k = "anio_lectura" then [Cond.anioEq v]
     else if k = "genero" then [Cond.generoEq v]
     else if k = "calificacion_min" then [Cond.califMin v]
     else if k = "calificacion_max" then [Cond.califMax v]
     else if k = "search" then
       [Cond.search ("%" ++ fvalStr v ++ "%")]
     else []) ++ buildConds rest

/-- Truth of one `WHERE` condition on one row; numeric comparisons follow
SQLite semantics for the well-typed parameter kinds the application
produces (an ill-typed pairing such as a text parameter compared with the
numeric `calificacion` column never arises in the claims, which restrict
filter dictionaries to the documented value types). -/
def condHolds (b : Libro) : Cond → Bool
  | .anioEq (.int n) => b.anio_lectura == n
  | .anioEq (.rat q) => (b.anio_lectura : Rat) == q
  | .anioEq (.str _) => false
  | .generoEq (.str s) => b.genero == s
  | .generoEq _ => false
  | .califMin (.int n) => (n : Rat) ≤ b.calificacion
  | .califMin (.rat q) => q ≤ b.calificacion
  | .califMin (.str _) => false
  | .califMax (.int n) => b.calificacion ≤ (n : Rat)
  | .califMax (.rat q) => b.calificacion ≤ q
  | .califMax (.str _) => false
  | .search pat =>
    likeMatch pat.data b.titulo.data || likeMatch pat.data b.autor.data

/-- Lexicographic text comparison, character by character, as SQLite's
BINARY collation orders TEXT values (ISO dates are ASCII, so character
order and byte order agree). -/
def charListLe : List Char → List Char → Bool
  | [], _ => true
  | _ :: _, [] => false
  | a :: as, b :: bs => a < b || (a == b && charListLe as bs)

theorem charListLe_total : ∀ as bs,
    charListLe as bs = true ∨ charListLe bs as = true := by
  intro as
  induction as with
  | nil => intro bs; exact Or.inl rfl
  | cons a as ih =>
    intro bs
    cases bs with
    | nil => exact Or.inr rfl
    | cons b bs =>
      rcases lt_trichotomy a b with h | h | h
      · left; simp [charListLe, h]
      · subst h
        rcases ih bs with h' | h'
        · left; simp [charListLe, h']
        · right; simp [charListLe, h']
      · right; simp [charListLe, h]

theorem charListLe_trans : ∀ as bs cs,
    charListLe as bs = true → charListLe bs cs = true →
    charListLe as cs = true := by
  intro as
  induction as with
  | nil => intro bs cs _ _; rfl
  | cons a as ih =>
    intro bs cs h1 h2
    cases bs with
    | nil => simp [charListLe] at h1
    | cons b bs =>
      cases cs with
      | nil => simp [charListLe] at h2
      | cons c cs =>
        simp only [charListLe, Bool.or_eq_true, Bool.and_eq_true,
          beq_iff_eq, decide_eq_true_eq] at h1 h2 ⊢
        rcases h1 with h1 | ⟨rfl, h1⟩
        · rcases h2 with h2 | ⟨rfl, h2⟩
          · exact Or.inl (lt_trans h1 h2)
          · exact Or.inl h1
        · rcases h2 with h2 | ⟨rfl, h2⟩
          · exact Or.inl h2
          · exact Or.inr ⟨rfl, ih bs cs h1 h2⟩

/-- `ORDER BY fecha_lectura DESC` as a relation on rows. -/
def fechaDesc (a b : Libro) : Prop :=
  charListLe b.fecha_lectura.data a.fecha_lectura.data = true

instance : DecidableRel fechaDesc := fun a b =>
  inferInstanceAs
    (Decidable (charListLe b.fecha_lectura.data a.fecha_lectura.data = true))

instance : IsTotal Libro fechaDesc :=
  ⟨fun a b =>
    charListLe_total b.fecha_lectura.data a.fecha_lectura.data⟩

instance : IsTrans Libro fechaDesc :=
  ⟨fun _ _ _ h h' =>
    charListLe_trans _ _ _ h' h⟩

/-- `LibroModel.obtener_libros`: build one condition per supported filter
key, keep the rows satisfying their conjunction, and order the result by
`fecha_lectura` descending. -/
def obtener_libros (db : List Libro) (filtros : List (String × FVal)) :
    List Libro :=
  List.insertionSort fechaDesc
    (db.filter fun b => (buildConds filtros).all (condHolds b))

/-- The `libro_data` dictionary handed to `crear_libro` /
`actualizar_libro`: required keys are plain fields, optional keys are
`Option`s (`none` models an absent key, read through `dict.get` with the
documented default). -/
structure LibroData where
  titulo : String
  autor : String
  genero : String
  subgenero : Option String := none
  anio_lectura : Option Int := none
  fecha_lectura : Option String := none
  calificacion : Option Rat := none
  paginas : Option Int := none
  editorial : Option String := none
  comentario : Option String := none
deriving DecidableEq, Repr

/-- The ambient clock: `datetime.now().year`,
`datetime.now().date().isoformat()` and SQLite `CURRENT_TIMESTAMP`. -/
structure Now where
  year : Int
  date : String
  timestamp : String
deriving DecidableEq, Repr

/-- The `libros` table together with its AUTOINCREMENT sequence: every
row id ever assigned is `≤ seq`, and the next insert uses `seq + 1`. -/
structure LibrosDB where
  rows : List Libro
  seq : Int
deriving DecidableEq, Repr

/-- The row inserted by `LibroModel.crear_libro` for input `d`, fresh id
`i` and clock `now`: absent optional keys fall back to the documented
defaults (empty text, current year, current date, rating 0, pages 0) and
both bookkeeping timestamps are set to `CURRENT_TIMESTAMP`. -/
def insertedRow (d : LibroData) (i : Int) (now : Now) : Libro :=
  { id := i
    titulo := d.titulo
    autor := d.autor
    genero := d.genero
    subgenero := d.subgenero.getD ""
    anio_lectura := d.anio_lectura.getD now.year
    fecha_lectura := d.fecha_lectura.getD now.date
    calificacion := d.calificacion.getD 0
    paginas := d.paginas.getD 0
    editorial := d.editorial.getD ""
    comentario := d.comentario.getD ""
    fecha_creacion := now.timestamp
    fecha_actualizacion := now.timestamp }

/-- `LibroModel.crear_libro`: insert the new row and return its id
(`cursor.lastrowid`). -/
def crear_libro (db : LibrosDB) (d : LibroData) (now : Now) :
    Int × LibrosDB :=
  let i := db.seq + 1
  (i, ⟨db.rows ++ [insertedRow d i now], i⟩)

/-- `LibroModel.actualizar_libro`: full replace of every mutable column
of the row with the given id, refreshing `fecha_actualizacion`; rows with
other ids are untouched, and the method returns `True` regardless of how
many rows matched. -/
def actualizar_libro (db : LibrosDB) (libro_id : Int) (d : LibroData)
    (now : Now) : Bool × LibrosDB :=
  (true,
   ⟨db.rows.map fun r =>
      if r.id = libro_id then
        { r with
          titulo := d.titulo
          autor := d.autor
          genero := d.genero
          subgenero := d.subgenero.getD ""
          anio_lectura := d.anio_lectura.getD now.year
          fecha_lectura := d.fecha_lectura.getD now.date
          calificacion := d.calificacion.getD 0
          paginas := d.paginas.getD 0
          editorial := d.editorial.getD ""
          comentario := d.comentario.getD ""
          fecha_actualizacion := now.timestamp }
      else r,
    db.seq⟩)

/-- Keep the first occurrence of every element, dropping later
duplicates; this is the order in which `GROUP BY` groups are formed for
the stability clause of the statistics specification. -/
def dedupFirstAux [DecidableEq α] (seen : List α) : List α → List α
  | [] => []
  | a :: l =>
    if a ∈ seen then dedupFirstAux seen l
    else a :: dedupFirstAux (a :: seen) l

/-- First-occurrence deduplication. -/
def dedupFirst [DecidableEq α] (l : List α) : List α :=
  dedupFirstAux [] l

/-- Descending order on `(year, count)` pairs, by year. -/
def yearDesc (p q : Int × Nat) : Prop := q.1 ≤ p.1

instance : DecidableRel yearDesc := fun p q =>
  inferInstanceAs (Decidable (q.1 ≤ p.1))

instance : IsTotal (Int × Nat) yearDesc := ⟨fun p q => le_total q.1 p.1⟩

instance : IsTrans (Int × Nat) yearDesc :=
  ⟨fun _ _ _ h h' => le_trans h' h⟩

/-- Descending order on `(genre, count)` pairs, by count. -/
def countDesc (p q : String × Nat) : Prop := q.2 ≤ p.2

instance : DecidableRel countDesc := fun p q =>
  inferInstanceAs (Decidable (q.2 ≤ p.2))

instance : IsTotal (String × Nat) countDesc := ⟨fun p q => le_total q.2 p.2⟩

instance : IsTrans (String × Nat) countDesc :=
  ⟨fun _ _ _ h h' => le_trans h' h⟩

/-- The result dictionary of `LibroModel.obtener_estadisticas`. -/
structure Estadisticas where
  total_libros : Nat
  libros_por_anio : List (Int × Nat)
  promedio_calificacion : Rat
  generos_populares : List (String × Nat)
deriving DecidableEq, Repr

/-- `LibroModel.obtener_estadisticas`: `COUNT(*)`; `GROUP BY
anio_lectura  ORDER BY anio_lectura DESC`; `AVG(calificacion)` with the
Python `or 0` fallback turning the NULL of an empty table into 0;
`GROUP BY genero ORDER BY count DESC LIMIT 5` (ties left in group
order, modelled as first-appearance order with a stable sort). -/
def obtener_estadisticas (db : List Libro) : Estadisticas :=
  { total_libros := db.length
    libros_por_anio :=
      List.insertionSort yearDesc
        ((dedupFirst (db.map Libro.anio_lectura)).map fun y =>
          (y, db.countP fun b => b.anio_lectura == y))
    promedio_calificacion :=
      if db.isEmpty then 0
      else (db.map Libro.calificacion).sum / db.length
    generos_populares :=
      (List.insertionSort countDesc
        ((dedupFirst (db.map Libro.genero)).map fun g =>
          (g, db.countP fun b => b.genero == g))).take 5 }

/-- The header row written by `csv.DictWriter`: the keys of the first
returned book dictionary, i.e. the fixed `column_names` list of
`obtener_libros`. -/
def csvHeader : List String :=
  ["id", "titulo", "autor", "genero", "subgenero", "anio_lectura",
   "fecha_lectura", "calificacion", "paginas", "editorial",
   "comentario", "fecha_creacion", "fecha_actualizacion"]

/-- A written CSV file, at the record level: the header line followed by
one data row per exported book. -/
structure CsvFile where
  header : List String
  dataRows : List Libro
deriving DecidableEq, Repr

/-- `LibroModel.exportar_a_csv`: run the filtered query; with no match
return `False` without touching the file system (`none`); otherwise
write header plus one row per book and return `True`. -/
def exportar_a_csv (db : List Libro) (filtros : List (String × FVal)) :
    Option CsvFile :=
  let libros := obtener_libros db filtros
  if libros.isEmpty then none
  else some { header := csvHeader, dataRows := libros }

/-- Lower-case hexadecimal digit, as Python's `json` emits in `\uXXXX`
escapes. -/
def hexDigit (n : Nat) : Char :=
  if n < 10 then Char.ofNat (48 + n) else Char.ofNat (87 + n)

/-- The escape `json.dumps` applies to one character of a string: `"` and
`\` get backslash escapes, the five short control escapes are used for
backspace, form-feed, newline, carriage-return and tab, any other
control character becomes `\u00XX`, and every other character is emitted
verbatim. -/
def escapeChar (c : Char) : List Char :=
  if c = '"' then ['\\', '"']
  else if c = '\\' then ['\\', '\\']
  else if c = '\x08' then ['\\', 'b']
  else if c = '\x0c' then ['\\', 'f']
  else if c = '\n' then ['\\', 'n']
  else if c = '\r' then ['\\', 'r']
  else if c = '\t' then ['\\', 't']
  else if c.toNat < 32 then
    ['\\', 'u', '0', '0', hexDigit (c.toNat / 16), hexDigit (c.toNat % 16)]
  else [c]

/-- JSON string-body encoding: each character escaped in turn. -/
def encodeStr : List Char → List Char
  | [] => []
  | c :: s => escapeChar c ++ encodeStr s

/-- One `"key": "value"` member as `json.dumps` renders it (default
separators put one space after the colon). -/
def itemChars (k v : String) : List Char :=
  '"' :: (encodeStr k.data ++
    '"' :: ':' :: ' ' :: '"' :: (encodeStr v.data ++ ['"']))

/-- The members of a dumped object, joined by `", "` (the default item
separator). -/
def dumpsItems : List (String × String) → List Char
  | [] => []
  | [(k, v)] => itemChars k v
  | (k, v) :: rest => itemChars k v ++ ',' :: ' ' :: dumpsItems rest

/-- `json.dumps` on the flat string-to-string dictionaries the
application stores in the `preferencias` column. -/
def dumps (m : List (String × String)) : String :=
  ⟨'{' :: (dumpsItems m ++ ['}'])⟩

/-- Numeric value of a hexadecimal digit character. -/
def hexVal (c : Char) : Option Nat :=
  if 48 ≤ c.toNat ∧ c.toNat ≤ 57 then some (c.toNat - 48)
  else if 97 ≤ c.toNat ∧ c.toNat ≤ 102 then some (c.toNat - 87)
  else if 65 ≤ c.toNat ∧ c.toNat ≤ 70 then some (c.toNat - 55)
  else none

/-- Decoding of a single-character JSON escape. -/
def escDecode (e : Char) : Option Char :=
  if e = '"' then some '"'
  else if e = '\\' then some '\\'
  else if e = '/' then some '/'
  else if e = 'b' then some '\x08'
  else if e = 'f' then some '\x0c'
  else if e = 'n' then some '\n'
  else if e = 'r' then some '\r'
  else if e = 't' then some '\t'
  else none

/-- JSON string-body parsing, starting just after the opening quote and
consuming through the closing quote; raw control characters are rejected
as in Python's strict mode, and `\uXXXX` escapes below the surrogate
range decode to the corresponding character (the application never
stores lone surrogates, which this model rejects). -/
def parseStr : List Char → Option (List Char × List Char)
  | [] => none
  | c :: rest =>
    if c = '"' then some ([], rest)
    else if c = '\\' then
      match rest with
      | [] => none
      | 'u' :: h1 :: h2 :: h3 :: h4 :: rest2 =>
        match hexVal h1, hexVal h2, hexVal h3, hexVal h4 with
        | some a, some b, some c1, some d =>
          let n := ((a * 16 + b) * 16 + c1) * 16 + d
          if n < 55296 then
            (parseStr rest2).map fun p => (Char.ofNat n :: p.1, p.2)
          else none
        | _, _, _, _ => none
      | e :: rest2 =>
        match escDecode e with
        | some d => (parseStr rest2).map fun p => (d :: p.1, p.2)
        | none => none
    else if c.toNat < 32 then none
    else (parseStr rest).map fun p => (c :: p.1, p.2)
termination_by l => l.length
decreasing_by all_goals simp_all <;> omega

/-- JSON insignificant whitespace removal from the front of the input. -/
def skipWs : List Char → List Char
  | [] => []
  | c :: rest =>
    if c = ' ' ∨ c = '\t' ∨ c = '\n' ∨ c = '\r' then skipWs rest
    else c :: rest

/-- Parsing of the member list of a JSON object, positioned at the
opening quote of a key; consumes through the closing `}`.  The fuel
argument bounds the number of members. -/
def parseMembers : Nat → List Char → Option (List (String × String) × List Char)
  | 0, _ => none
  | fuel + 1, '"' :: l =>
    match parseStr l with
    | some (k, r1) =>
      match skipWs r1 with
      | ':' :: r2 =>
        match skipWs r2 with
        | '"' :: r3 =>
          match parseStr r3 with
          | some (v, r4) =>
            match skipWs r4 with
            | ',' :: r5 =>
              match parseMembers fuel (skipWs r5) with
              | some (m, r6) => some ((⟨k⟩, ⟨v⟩) :: m, r6)
              | none => none
            | '}' :: r5 => some ([(⟨k⟩, ⟨v⟩)], r5)
            | _ => none
          | none => none
        | _ => none
      | _ => none
    | none => none
  | _ + 1, _ => none

/-- Parsing of a nonempty member list up to the end of the input, fuel
derived from the input length. -/
def loadsTail (l : List Char) : Option (List (String × String)) :=
  match parseMembers (l.length + 1) l with
  | some (m, rest2) => if (skipWs rest2).isEmpty then some m else none
  | none => none

/-- Parsing of an object body after the opening brace: either an
immediate closing brace (empty object) or a member list. -/
def loadsBody : List Char → Option (List (String × String))
  | '}' :: rest2 => if (skipWs rest2).isEmpty then some [] else none
  | l => loadsTail l

/-- `json.loads` restricted to the flat string-to-string objects the
application stores; `none` models the `JSONDecodeError` raised on any
other input. -/
def loads (s : String) : Option (List (String × String)) :=
  match skipWs s.data with
  | '{' :: rest => loadsBody (skipWs rest)
  | _ => none

/-- A row of the `usuario` table; `preferencias` is the serialized TEXT
column. -/
structure Usuario where
  id : Int
  nombre : String
  email : String
  avatar : String
  preferencias : String
  fecha_creacion : String
  fecha_actualizacion : String
deriving DecidableEq, Repr

/-- The default profile row inserted by `_initialize_database` when the
`usuario` table is empty (AUTOINCREMENT assigns id 1 in a fresh table). -/
def defaultUsuario (ts : String) : Usuario :=
  { id := 1
    nombre := "Lector"
    email := "lector@example.com"
    avatar := "default_avatar.png"
    preferencias := "{}"
    fecha_creacion := ts
    fecha_actualizacion := ts }

/-- The two tables owned by the database file; `none` models a table
that does not exist yet (fresh file). -/
structure DBState where
  libros : Option LibrosDB
  usuario : Option (List Usuario)
deriving DecidableEq, Repr

/-- A database file that does not exist yet. -/
def emptyDBState : DBState := ⟨none, none⟩

/-- `DatabaseManager._initialize_database`: `CREATE TABLE IF NOT EXISTS`
for both tables, then insert the single default profile row only when
`SELECT COUNT(*) FROM usuario` is zero. -/
def initialize_database (now : Now) (s : DBState) : DBState :=
  let libros := s.libros.getD ⟨[], 0⟩
  let usuario := s.usuario.getD []
  { libros := some libros
    usuario :=
      some (if usuario.length = 0 then [defaultUsuario now.timestamp]
            else usuario) }

/-- The `usuario_data` dictionary handed to `actualizar_usuario`:
`avatar` and `preferencias` are read through `dict.get` with defaults,
the other keys are required. -/
structure UsuarioData where
  id : Int
  nombre : String
  email : String
  avatar : Option String := none
  preferencias : Option (List (String × String)) := none
deriving DecidableEq, Repr

/-- `UsuarioModel.actualizar_usuario`: rewrite every column of the row
whose id matches, serializing the preference mapping with `json.dumps`
and refreshing `fecha_actualizacion`; returns `True`. -/
def actualizar_usuario (tbl : List Usuario) (d : UsuarioData)
    (now : String) : Bool × List Usuario :=
  (true,
   tbl.map fun u =>
     if u.id = d.id then
       { u with
         nombre := d.nombre
         email := d.email
         avatar := d.avatar.getD "default_avatar.png"
         preferencias := dumps (d.preferencias.getD [])
         fecha_actualizacion := now }
     else u)

/-- The dictionary returned by `obtener_usuario`, with `preferencias`
materialized as a mapping by `json.loads`. -/
structure UsuarioDict where
  id : Int
  nombre : String
  email : String
  avatar : String
  preferencias : List (String × String)
  fecha_creacion : String
  fecha_actualizacion : String
deriving DecidableEq, Repr

/-- `UsuarioModel.obtener_usuario`: `SELECT * FROM usuario LIMIT 1`,
decode `preferencias`; `none` models the exception raised on an empty
table or on an undecodable preference column. -/
def obtener_usuario (tbl : List Usuario) : Option UsuarioDict :=
  match tbl with
  | [] => none
  | u :: _ =>
    (loads u.preferencias).map fun p =>
      { id := u.id
        nombre := u.nombre
        email := u.email
        avatar := u.avatar
        preferencias := p
        fecha_creacion := u.fecha_creacion
        fecha_actualizacion := u.fecha_actualizacion }

/-- The dictionary built by `InformeModel.generar_informe_lectura`: the
book's full record plus the two global scalars copied out of a fresh
`obtener_estadisticas` call. -/
structure Informe where
  libro : Libro
  total_libros_leidos : Nat
  promedio_calificacion_global : Rat
deriving DecidableEq, Repr

/-- `InformeModel.generar_informe_lectura`: `SELECT * FROM libros WHERE
id = ?`; the empty dictionary returned when no row matches is modelled
as `none`, otherwise the first matching row is augmented with the
statistics scalars. -/
def generar_informe_lectura (db : List Libro) (libro_id : Int) :
    Option Informe :=
  match db.filter (fun b => b.id == libro_id) with
  | [] => none
  | b :: _ =>
    some
      { libro := b
        total_libros_leidos := (obtener_estadisticas db).total_libros
        promedio_calificacion_global :=
          (obtener_estadisticas db).promedio_calificacion }

/-- A Python value held in the controller's `book_data` dictionary:
form fields arrive as strings and coercion may turn them into ints. -/
inductive PyVal where
  | str (s : String)
  | int (n : Int)
deriving DecidableEq, Repr

/-- Code points of the whitespace characters Python's `int(str)`
conversion strips from both ends (the CPython Unicode whitespace set:
TAB, LF, VT, FF, CR, SPACE, NEL, NBSP, OGHAM SPACE MARK, the typographic
spaces U+2000–U+200A, LINE/PARAGRAPH SEPARATOR, NARROW NBSP, MMSP and
IDEOGRAPHIC SPACE). -/
def pyWsCodes : List Nat :=
  [9, 10, 11, 12, 13, 32, 133, 160, 5760, 8192, 8193, 8194, 8195, 8196,
   8197, 8198, 8199, 8200, 8201, 8202, 8232, 8233, 8239, 8287, 12288]

/-- Whitespace stripped by Python's `int(str)` conversion. -/
def isPyWs (c : Char) : Bool :=
  pyWsCodes.contains c.toNat

/-- The zero code point of every run of Unicode decimal digits (category
Nd, Unicode 15.1 as shipped with the Python 3.13 this repository
depends on): each run holds exactly the ten digits `z .. z + 9` with
values 0–9, and Python's `int` accepts digits from any of these runs,
even mixed. -/
def pyDigitZeros : List Nat :=
  [48, 1632, 1776, 1984, 2406, 2534, 2662, 2790, 2918, 3046, 3174, 3302,
   3430, 3558, 3664, 3792, 3872, 4160, 4240, 6112, 6160, 6470, 6608,
   6784, 6800, 6992, 7088, 7232, 7248, 42528, 43216, 43264, 43472,
   43504, 43600, 44016, 65296, 66720, 68912, 69734, 69872, 69942, 70096,
   70384, 70736, 70864, 71248, 71360, 71472, 71904, 72016, 72784, 73040,
   73120, 73552, 92768, 92864, 93008, 120782, 120792, 120802, 120812,
   120822, 123200, 123632, 124144, 125264, 130032]

/-- The decimal value of a Unicode digit as Python's `int` accepts it,
`none` for any other character. -/
def pyDigitVal (c : Char) : Option Nat :=
  (pyDigitZeros.find? fun z => z ≤ c.toNat && c.toNat ≤ z + 9).map
    fun z => c.toNat - z

/-- Digit-sequence parsing for Python's `int`: Unicode decimal digits,
with single underscores allowed between digits. -/
def pdAux (acc : Nat) : List Char → Option Nat
  | [] => some acc
  | '_' :: c :: rest =>
    match pyDigitVal c with
    | some d => pdAux (acc * 10 + d) rest
    | none => none
  | '_' :: [] => none
  | c :: rest =>
    match pyDigitVal c with
    | some d => pdAux (acc * 10 + d) rest
    | none => none

/-- Parse a nonempty underscore-grouped digit sequence. -/
def parseDigits : List Char → Option Nat
  | [] => none
  | c :: rest =>
    match pyDigitVal c with
    | some d => pdAux d rest
    | none => none

/-- Python's `int(string)` conversion: strip Unicode whitespace from
both ends, optional ASCII sign, then a nonempty sequence of Unicode
decimal digits with single underscores allowed between digits; `none`
models the `ValueError` raised on anything else — in particular on the
empty string. -/
def parsePyInt (s : String) : Option Int :=
  let t := ((s.data.dropWhile isPyWs).reverse.dropWhile isPyWs).reverse
  match t with
  | '+' :: r => (parseDigits r).map Int.ofNat
  | '-' :: r => (parseDigits r).map fun n => -(n : Int)
  | r => (parseDigits r).map Int.ofNat

/-- The year coercion step of `MainController.add_book` /
`update_book`: the `if book_data.get('anio_lectura'):` guard skips the
whole block on a falsy (empty) string, otherwise `int(...)` is tried
and a `ValueError` is silently replaced by `datetime.now().year`. -/
def coerceAnio (s : String) (yearNow : Int) : PyVal :=
  if s.isEmpty then PyVal.str s
  else
    match parsePyInt s with
    | some n => PyVal.int n
    | none => PyVal.int yearNow

/-- The page-count coercion step of `MainController.add_book` /
`update_book`: same guard, with fallback 0. -/
def coercePaginas (s : String) : PyVal :=
  if s.isEmpty then PyVal.str s
  else
    match parsePyInt s with
    | some n => PyVal.int n
    | none => PyVal.int 0

/-- The five filter keys recognized by the loop in `obtener_libros`. -/
def supportedKey (k : String) : Bool :=
  k == "anio_lectura" || k == "genero" || k == "calificacion_min" ||
    k == "calificacion_max" || k == "search"

theorem buildConds_filter_supported (fs : List (String × FVal)) :
    buildConds (fs.filter fun e => supportedKey e.1) = buildConds fs := by
  induction fs with
  | nil => rfl
  | cons e rest ih =>
    obtain ⟨k, v⟩ := e
    by_cases h : supportedKey k
    · simp only [List.filter_cons, h, if_true]
      simp [buildConds, ih]
    · have hk := h
      simp only [supportedKey, Bool.or_eq_true, beq_iff_eq, not_or] at hk
      obtain ⟨⟨⟨⟨h1, h2⟩, h3⟩, h4⟩, h5⟩ := hk
      simp only [List.filter_cons, h, if_false]
      simp [buildConds, h1, h2, h3, h4, h5, ih]

/-- C10: `obtener_libros` silently ignores every filter key outside the
five supported ones — the result is unchanged when the unsupported
entries are removed — and in particular a `{'id': n}` filter returns the
entire collection (the no-filter result). -/
theorem obtener_libros_ignores_unsupported_keys
    (db : List Libro) (fs : List (String × FVal)) (n : Int) :
    obtener_libros db fs =
      obtener_libros db (fs.filter fun e => supportedKey e.1) ∧
    obtener_libros db [("id", FVal.int n)] = obtener_libros db [] := by
  constructor
  · unfold obtener_libros
    rw [buildConds_filter_supported]
  · unfold obtener_libros
    simp [buildConds]

/-- C10 witness: a concrete two-entry filter where dropping the
unsupported `id` key changes nothing. -/
theorem obtener_libros_ignores_unsupported_keys_witness :
    obtener_libros [] [("id", FVal.int 7), ("genero", FVal.str "Novela")] =
      obtener_libros []
        ([("id", FVal.int 7), ("genero", FVal.str "Novela")].filter
          fun e => supportedKey e.1) ∧
    obtener_libros [] [("id", FVal.int 7)] = obtener_libros [] [] :=
  ⟨(obtener_libros_ignores_unsupported_keys []
      [("id", FVal.int 7), ("genero", FVal.str "Novela")] 7).1,
   (obtener_libros_ignores_unsupported_keys [] [] 7).2⟩

/-- The pre-existing book of the C1 failing input: read later
(`fecha_lectura` 2024-06-01) than the newly created one. -/
def c1Prior : Libro :=
  { id := 1
    titulo := "Viejo"
    autor := "Alguien"
    genero := "Novela"
    subgenero := ""
    anio_lectura := 2024
    fecha_lectura := "2024-06-01"
    calificacion := 3
    paginas := 100
    editorial := ""
    comentario := ""
    fecha_creacion := "2024-06-02 09:00:00"
    fecha_actualizacion := "2024-06-02 09:00:00" }

/-- The valid book input of the C1 failing input: non-empty title and
author, explicit read date, other optional fields omitted. -/
def c1Input : LibroData :=
  { titulo := "Dune"
    autor := "Frank Herbert"
    genero := "SciFi"
    fecha_lectura := some "2024-01-01" }

/-- The clock at the moment of the C1 create call. -/
def c1Now : Now := ⟨2025, "2025-03-04", "2025-03-04 10:00:00"⟩

/-- The stored collection before the C1 create call: one prior book,
AUTOINCREMENT sequence at 1. -/
def c1DB : LibrosDB := ⟨[c1Prior], 1⟩

/-- C1: evaluation of the code at the failing input.  `crear_libro`
returns id 2, but `obtener_libros` with the filter `{'id': 2}` ignores
the unsupported `id` key and returns both stored books (the prior book
first, by read-date), not exactly the one just created — the claimed
create-then-read round trip fails on any collection that already holds
a book. -/
theorem crear_then_list_by_id_returns_all_books :
    (crear_libro c1DB c1Input c1Now).1 = 2 ∧
    obtener_libros (crear_libro c1DB c1Input c1Now).2.rows
        [("id", FVal.int 2)] =
      [c1Prior, insertedRow c1Input 2 c1Now] ∧
    (obtener_libros (crear_libro c1DB c1Input c1Now).2.rows
        [("id", FVal.int 2)]).length = 2 ∧
    insertedRow c1Input 2 c1Now =
      { id := 2
        titulo := "Dune"
        autor := "Frank Herbert"
        genero := "SciFi"
        subgenero := ""
        anio_lectura := 2025
        fecha_lectura := "2024-01-01"
        calificacion := 0
        paginas := 0
        editorial := ""
        comentario := ""
        fecha_creacion := "2025-03-04 10:00:00"
        fecha_actualizacion := "2025-03-04 10:00:00" } := by
  decide

/-- C4: `exportar_a_csv` writes nothing (returns `False`, modelled
`none`) exactly when the filtered query is empty, and otherwise writes
the fixed header row (the key order of the first returned book
dictionary) followed by exactly the matching books, one data row each,
returning `True` (modelled `some file`). -/
theorem exportar_a_csv_spec (db : List Libro) (fs : List (String × FVal)) :
    (exportar_a_csv db fs = none ↔ obtener_libros db fs = []) ∧
    (obtener_libros db fs ≠ [] →
      exportar_a_csv db fs =
        some ⟨csvHeader, obtener_libros db fs⟩ ∧
      ∀ f, exportar_a_csv db fs = some f →
        f.header = csvHeader ∧
        f.dataRows.length = (obtener_libros db fs).length ∧
        1 ≤ f.dataRows.length) := by
  by_cases h : obtener_libros db fs = []
  · simp [exportar_a_csv, h]
  · constructor
    · simp [exportar_a_csv, List.isEmpty_iff, h]
    · intro _
      refine ⟨by simp [exportar_a_csv, List.isEmpty_iff, h], ?_⟩
      intro f hf
      simp only [exportar_a_csv, List.isEmpty_iff] at hf
      rw [if_neg h] at hf
      cases hf
      exact ⟨rfl, rfl, List.length_pos.mpr h⟩

/-- C4 witness: exporting a one-book collection with no filter writes
the header plus one data row; the empty collection exports nothing. -/
theorem exportar_a_csv_spec_witness :
    (exportar_a_csv [] [] = none ↔ obtener_libros [] [] = []) ∧
    exportar_a_csv [c1Prior] [] =
      some ⟨csvHeader, obtener_libros [c1Prior] []⟩ ∧
    ∀ f, exportar_a_csv [c1Prior] [] = some f →
      f.header = csvHeader ∧
      f.dataRows.length = (obtener_libros [c1Prior] []).length ∧
      1 ≤ f.dataRows.length :=
  ⟨(exportar_a_csv_spec [] []).1,
   (exportar_a_csv_spec [c1Prior] []).2 (by decide)⟩

/-- C9 counterexample: the empty string is year-read text input that
cannot be parsed as an integer (`int('')` raises `ValueError`), yet the
truthiness guard `if book_data.get('anio_lectura'):` skips the coercion
block entirely, so the value reaching the repository is the unparsed
empty string, not the current-year default; likewise for pages. -/
theorem coercion_skips_empty_string :
    parsePyInt "" = none ∧
    coerceAnio "" 2025 = PyVal.str "" ∧
    PyVal.str "" ≠ PyVal.int 2025 ∧
    coercePaginas "" = PyVal.str "" ∧
    PyVal.str "" ≠ PyVal.int 0 := by
  decide

/-- C9 (amended): in the add and update paths, a NON-EMPTY year-read or
page-count text input that cannot be parsed as an integer is silently
replaced by its documented default (current year, resp. zero), and a
parsable one is replaced by its integer value; the empty string,
however, is passed through unchanged because the truthiness guard skips
coercion. -/
theorem coercion_fallback_defaults (s : String) (y : Int)
    (hne : s ≠ "") :
    (parsePyInt s = none →
      coerceAnio s y = PyVal.int y ∧ coercePaginas s = PyVal.int 0) ∧
    (∀ n, parsePyInt s = some n →
      coerceAnio s y = PyVal.int n ∧ coercePaginas s = PyVal.int n) := by
  have hemp : s.isEmpty = false := by
    rw [Bool.eq_false_iff]
    simpa [String.isEmpty_iff] using hne
  constructor
  · intro hp
    simp [coerceAnio, coercePaginas, hemp, hp]
  · intro n hp
    simp [coerceAnio, coercePaginas, hemp, hp]

/-- C9 witness: the unparsable year text `"199x"` is replaced by the
current year 2025, and as page count by 0. -/
theorem coercion_fallback_defaults_witness :
    parsePyInt "199x" = none ∧
    coerceAnio "199x" 2025 = PyVal.int 2025 ∧
    coercePaginas "199x" = PyVal.int 0 := by
  have h := (coercion_fallback_defaults "199x" 2025 (by decide)).1 (by decide)
  exact ⟨by decide, h.1, h.2⟩

/-- C5: schema initialization is idempotent — a second run against a
database in which it has already run changes nothing (both tables are
created only if absent and no second default profile row is inserted) —
and after any positive number of initializations of a fresh file the
profile table holds exactly the one default row. -/
theorem initialize_database_idempotent (now now' : Now) (s : DBState)
    (n : Nat) :
    initialize_database now' (initialize_database now s) =
      initialize_database now s ∧
    (1 ≤ n →
      ((initialize_database now)^[n] emptyDBState).usuario =
        some [defaultUsuario now.timestamp]) := by
  constructor
  · unfold initialize_database
    by_cases h : (s.usuario.getD []).length = 0 <;> simp [h]
  · intro hn
    induction n with
    | zero => omega
    | succ m ih =>
      rw [Function.iterate_succ_apply']
      rcases Nat.eq_zero_or_pos m with hm | hm
      · subst hm
        simp [initialize_database, emptyDBState]
      · have hu := ih hm
        set X := (initialize_database now)^[m] emptyDBState with hX
        simp [initialize_database, hu]

/-- C5 witness: two initializations of one concrete state coincide with
one, and two initializations of a fresh file leave exactly the default
profile row. -/
theorem initialize_database_idempotent_witness :
    initialize_database ⟨2025, "2025-01-02", "ts2"⟩
        (initialize_database ⟨2025, "2025-01-01", "ts1"⟩ emptyDBState) =
      initialize_database ⟨2025, "2025-01-01", "ts1"⟩ emptyDBState ∧
    ((initialize_database ⟨2025, "2025-01-01", "ts1"⟩)^[2]
        emptyDBState).usuario = some [defaultUsuario "ts1"] := by
  have h := initialize_database_idempotent ⟨2025, "2025-01-01", "ts1"⟩
    ⟨2025, "2025-01-02", "ts2"⟩ emptyDBState 2
  exact ⟨h.1, h.2 (by decide)⟩

/-- C7: `actualizar_libro` returns `True` and replaces every mutable
field of each row carrying the given id (refreshing
`fecha_actualizacion` to the current timestamp while keeping the id and
`fecha_creacion`), leaves every other row and the id sequence
unchanged, and is the identity on the table — a silent no-op, still
returning `True` — when no row carries the id. -/
theorem actualizar_libro_spec (db : LibrosDB) (libro_id : Int)
    (d : LibroData) (now : Now) :
    (actualizar_libro db libro_id d now).1 = true ∧
    (actualizar_libro db libro_id d now).2.seq = db.seq ∧
    (actualizar_libro db libro_id d now).2.rows.length =
      db.rows.length ∧
    (actualizar_libro db libro_id d now).2.rows.map Libro.id =
      db.rows.map Libro.id ∧
    (∀ b ∈ db.rows, b.id ≠ libro_id →
      b ∈ (actualizar_libro db libro_id d now).2.rows) ∧
    (∀ b' ∈ (actualizar_libro db libro_id d now).2.rows,
      b'.id = libro_id →
        b'.titulo = d.titulo ∧ b'.autor = d.autor ∧
        b'.genero = d.genero ∧ b'.subgenero = d.subgenero.getD "" ∧
        b'.anio_lectura = d.anio_lectura.getD now.year ∧
        b'.fecha_lectura = d.fecha_lectura.getD now.date ∧
        b'.calificacion = d.calificacion.getD 0 ∧
        b'.paginas = d.paginas.getD 0 ∧
        b'.editorial = d.editorial.getD "" ∧
        b'.comentario = d.comentario.getD "" ∧
        b'.fecha_actualizacion = now.timestamp ∧
        ∃ b ∈ db.rows, b.id = libro_id ∧
          b'.fecha_creacion = b.fecha_creacion) ∧
    ((∀ b ∈ db.rows, b.id ≠ libro_id) →
      (actualizar_libro db libro_id d now).2 = db) := by
  refine ⟨rfl, rfl, by simp [actualizar_libro], ?_, ?_, ?_, ?_⟩
  · simp only [actualizar_libro, List.map_map]
    apply List.map_congr_left
    intro b _
    by_cases h : b.id = libro_id <;> simp [h]
  · intro b hb hbid
    simp only [actualizar_libro, List.mem_map]
    exact ⟨b, hb, by simp [hbid]⟩
  · intro b' hb' hid
    simp only [actualizar_libro, List.mem_map] at hb'
    obtain ⟨b, hb, hfb⟩ := hb'
    by_cases h : b.id = libro_id
    · rw [if_pos h] at hfb
      subst hfb
      exact ⟨rfl, rfl, rfl, rfl, rfl, rfl, rfl, rfl, rfl, rfl, rfl,
        b, hb, h, rfl⟩
    · rw [if_neg h] at hfb
      subst hfb
      exact absurd hid h
  · intro hnone
    cases db with
    | mk rows seq =>
      simp only [actualizar_libro, LibrosDB.mk.injEq, and_true]
      rw [show (rows.map fun r =>
          if r.id = libro_id then
            { r with
              titulo := d.titulo
              autor := d.autor
              genero := d.genero
              subgenero := d.subgenero.getD ""
              anio_lectura := d.anio_lectura.getD now.year
              fecha_lectura := d.fecha_lectura.getD now.date
              calificacion := d.calificacion.getD 0
              paginas := d.paginas.getD 0
              editorial := d.editorial.getD ""
              comentario := d.comentario.getD ""
              fecha_actualizacion := now.timestamp }
          else r) = rows.map id from
        List.map_congr_left fun b hb => if_neg (hnone b hb), List.map_id]

/-- C7 witness: updating a missing id (5) in a one-row table returns
`True` and leaves the table unchanged; the present id (1) gets its
title replaced and its timestamp refreshed. -/
theorem actualizar_libro_spec_witness :
    (actualizar_libro ⟨[c1Prior], 1⟩ 5 c1Input c1Now).1 = true ∧
    (actualizar_libro ⟨[c1Prior], 1⟩ 5 c1Input c1Now).2 =
      ⟨[c1Prior], 1⟩ := by
  have h := actualizar_libro_spec ⟨[c1Prior], 1⟩ 5 c1Input c1Now
  exact ⟨h.1, h.2.2.2.2.2.2 (by decide)⟩

/-- C8: report building returns the empty sentinel (`none`) exactly when
no stored book has the requested id, and otherwise returns the first
matching book's full record augmented with exactly the two global
scalars: the total book count and the global average rating, both
recomputed from the current collection. -/
theorem generar_informe_lectura_spec (db : List Libro) (libro_id : Int) :
    (generar_informe_lectura db libro_id = none ↔
      ∀ b ∈ db, b.id ≠ libro_id) ∧
    (∀ b, db.find? (fun x => x.id == libro_id) = some b →
      generar_informe_lectura db libro_id =
        some ⟨b, db.length,
          (obtener_estadisticas db).promedio_calificacion⟩) := by
  constructor
  · unfold generar_informe_lectura
    rcases hf : db.filter (fun b => b.id == libro_id) with _ | ⟨b, t⟩
    · simp only [hf]
      simp only [List.filter_eq_nil_iff] at hf
      simpa using hf
    · simp only [hf, reduceCtorEq, false_iff, not_forall]
      have hb : b ∈ db.filter (fun x => x.id == libro_id) := by
        rw [hf]; exact List.mem_cons_self b t
      rw [List.mem_filter] at hb
      refine ⟨b, hb.1, ?_⟩
      have := hb.2
      simp only [beq_iff_eq] at this
      simp [this]
  · intro b hfind
    have hfil : ∀ l : List Libro,
        l.find? (fun x => x.id == libro_id) = some b →
        ∃ t, l.filter (fun x => x.id == libro_id) = b :: t := by
      intro l
      induction l with
      | nil => intro h; simp at h
      | cons a l ih =>
        intro hf
        by_cases h : (a.id == libro_id) = true
        · simp only [List.find?, h] at hf
          cases hf
          exact ⟨l.filter (fun x => x.id == libro_id),
            by simp [List.filter_cons, h]⟩
        · rw [Bool.not_eq_true] at h
          simp only [List.find?, h] at hf
          obtain ⟨t, ht⟩ := ih hf
          exact ⟨t, by simp [List.filter_cons, h, ht]⟩
    obtain ⟨t, ht⟩ := hfil db hfind
    unfold generar_informe_lectura
    rw [ht]
    rfl

/-- C8 witness: a one-book collection reports that book augmented with
total 1 and the global average equal to its rating; an absent id yields
the empty sentinel. -/
theorem generar_informe_lectura_spec_witness :
    (generar_informe_lectura [c1Prior] 9 = none ↔
      ∀ b ∈ [c1Prior], b.id ≠ 9) ∧
    generar_informe_lectura [c1Prior] 1 =
      some ⟨c1Prior, [c1Prior].length,
        (obtener_estadisticas [c1Prior]).promedio_calificacion⟩ :=
  ⟨(generar_informe_lectura_spec [c1Prior] 9).1,
   (generar_informe_lectura_spec [c1Prior] 1).2 c1Prior (by decide)⟩

theorem likeMatch_nil (s : List Char) : likeMatch [] s = s.isEmpty := by
  simp [likeMatch]

theorem likeMatch_cons_nil (p : Char) (ps : List Char) :
    likeMatch (p :: ps) [] = (p == '%' && likeMatch ps []) := by
  simp [likeMatch]

theorem likeMatch_pct_cons (ps : List Char) (c : Char) (s : List Char) :
    likeMatch ('%' :: ps) (c :: s) =
      (likeMatch ps (c :: s) || likeMatch ('%' :: ps) s) := by
  simp [likeMatch]

theorem likeMatch_char_cons (p : Char) (ps : List Char) (c : Char)
    (s : List Char) (h1 : p ≠ '%') (h2 : p ≠ '_') :
    likeMatch (p :: ps) (c :: s) =
      (p.toLower == c.toLower && likeMatch ps s) := by
  simp [likeMatch, h1, h2]

theorem likeMatch_pct_all (s : List Char) : likeMatch ['%'] s = true := by
  induction s with
  | nil => simp [likeMatch]
  | cons c s ih => rw [likeMatch_pct_cons]; simp [ih]

/-- A leading `%` matches exactly when some split of the text lets the
rest of the pattern match the remaining suffix. -/
theorem likeMatch_pct_iff (ps s : List Char) :
    likeMatch ('%' :: ps) s = true ↔
      ∃ s1 s2, s = s1 ++ s2 ∧ likeMatch ps s2 = true := by
  induction s with
  | nil =>
    rw [likeMatch_cons_nil]
    simp only [Bool.and_eq_true, beq_self_eq_true, true_and]
    constructor
    · intro h; exact ⟨[], [], rfl, h⟩
    · rintro ⟨s1, s2, h, hm⟩
      rcases List.append_eq_nil.mp h.symm with ⟨rfl, rfl⟩
      exact hm
  | cons c s ih =>
    rw [likeMatch_pct_cons]
    simp only [Bool.or_eq_true]
    constructor
    · rintro (h | h)
      · exact ⟨[], c :: s, rfl, h⟩
      · obtain ⟨s1, s2, rfl, hm⟩ := ih.mp h
        exact ⟨c :: s1, s2, rfl, hm⟩
    · rintro ⟨s1, s2, heq, hm⟩
      cases s1 with
      | nil =>
        left
        simp only [List.nil_append] at heq
        rw [← heq] at hm
        exact hm
      | cons a s1 =>
        right
        rw [List.cons_append] at heq
        injection heq with h1 h2
        exact ih.mpr ⟨s1, s2, h2, hm⟩

/-- Wildcard-free character lists: no `%` and no `_`. -/
def noWild (v : List Char) : Bool :=
  v.all fun c => !(c == '%') && !(c == '_')

/-- A wildcard-free pattern followed by `%` matches exactly the texts
that start (case-insensitively) with the pattern. -/
theorem likeMatch_tail_pct (v : List Char) :
    noWild v = true → ∀ s,
      (likeMatch (v ++ ['%']) s = true ↔
        ∃ s1 s2, s = s1 ++ s2 ∧ lowerChars s1 = lowerChars v) := by
  induction v with
  | nil =>
    intro _ s
    simp only [List.nil_append]
    constructor
    · intro _
      exact ⟨[], s, rfl, rfl⟩
    · intro _
      exact likeMatch_pct_all s
  | cons p v ih =>
    intro hv s
    simp only [noWild, List.all_cons, Bool.and_eq_true, Bool.not_eq_true',
      beq_eq_false_iff_ne, ne_eq] at hv
    obtain ⟨⟨hp, hq⟩, hv'⟩ := hv
    have hv'' : noWild v = true := by simpa [noWild] using hv'
    cases s with
    | nil =>
      rw [List.cons_append, likeMatch_cons_nil]
      constructor
      · intro h
        simp [beq_iff_eq, hp] at h
      · rintro ⟨s1, s2, heq, hl⟩
        rcases List.append_eq_nil.mp heq.symm with ⟨rfl, rfl⟩
        simp [lowerChars] at hl
    | cons c s =>
      rw [List.cons_append, likeMatch_char_cons p _ c s hp hq]
      simp only [Bool.and_eq_true, beq_iff_eq]
      constructor
      · rintro ⟨hlow, hm⟩
        obtain ⟨s1, s2, rfl, hl⟩ := (ih hv'' s).mp hm
        refine ⟨c :: s1, s2, rfl, ?_⟩
        simp [lowerChars] at hl ⊢
        exact ⟨hlow.symm, hl⟩
      · rintro ⟨s1, s2, heq, hl⟩
        cases s1 with
        | nil => simp [lowerChars] at hl
        | cons a s1 =>
          rw [List.cons_append] at heq
          injection heq with h1 h2
          subst h1
          simp only [lowerChars, List.map_cons, List.cons.injEq] at hl
          exact ⟨hl.1.symm, (ih hv'' s).mpr ⟨s1, s2, h2, hl.2⟩⟩

theorem beginsWith_iff (n : List Char) : ∀ h,
    (beginsWith n h = true ↔ ∃ w, h = n ++ w) := by
  induction n with
  | nil =>
    intro h
    simp [beginsWith]
  | cons a n ih =>
    intro h
    cases h with
    | nil =>
      simp [beginsWith]
    | cons b t =>
      simp only [beginsWith, Bool.and_eq_true, beq_iff_eq, ih,
        List.cons_append, List.cons.injEq]
      constructor
      · rintro ⟨rfl, w, rfl⟩
        exact ⟨w, rfl, rfl⟩
      · rintro ⟨w, rfl, rfl⟩
        exact ⟨rfl, w, rfl⟩

theorem containsSub_iff (n : List Char) : ∀ h,
    (containsSub n h = true ↔ ∃ u w, h = u ++ n ++ w) := by
  intro h
  induction h with
  | nil =>
    simp only [containsSub, List.isEmpty_iff]
    constructor
    · rintro rfl
      exact ⟨[], [], rfl⟩
    · rintro ⟨u, w, huw⟩
      rcases List.append_eq_nil.mp huw.symm with ⟨h1, rfl⟩
      exact (List.append_eq_nil.mp h1).2
  | cons c t ih =>
    simp only [containsSub, Bool.or_eq_true, beginsWith_iff, ih]
    constructor
    · rintro (⟨w, hw⟩ | ⟨u, w, rfl⟩)
      · exact ⟨[], w, by simpa using hw⟩
      · exact ⟨c :: u, w, rfl⟩
    · rintro ⟨u, w, huw⟩
      cases u with
      | nil =>
        simp only [List.nil_append] at huw
        exact Or.inl ⟨w, huw⟩
      | cons a u =>
        simp only [List.cons_append, List.cons.injEq] at huw
        exact Or.inr ⟨u, w, huw.2⟩

theorem lowerChars_append (a b : List Char) :
    lowerChars (a ++ b) = lowerChars a ++ lowerChars b :=
  List.map_append Char.toLower a b

/-- The full `LIKE '%v%'` semantics for a wildcard-free `v`: exactly
case-insensitive substring containment. -/
theorem likeMatch_substring (v s : List Char) (hv : noWild v = true) :
    likeMatch ('%' :: (v ++ ['%'])) s =
      containsSub (lowerChars v) (lowerChars s) := by
  rw [Bool.eq_iff_iff, likeMatch_pct_iff, containsSub_iff]
  constructor
  · rintro ⟨s1, s2, rfl, hm⟩
    obtain ⟨t1, t2, rfl, hl⟩ := (likeMatch_tail_pct v hv s2).mp hm
    refine ⟨lowerChars s1, lowerChars t2, ?_⟩
    rw [lowerChars_append, lowerChars_append, hl, List.append_assoc]
  · rintro ⟨u, w, huw⟩
    refine ⟨s.take u.length, s.drop u.length, (List.take_append_drop _ s).symm,
      (likeMatch_tail_pct v hv _).mpr
        ⟨(s.drop u.length).take (lowerChars v).length,
         (s.drop u.length).drop (lowerChars v).length,
         (List.take_append_drop _ _).symm, ?_⟩⟩
    rw [lowerChars, List.map_take, List.map_drop, ← lowerChars, huw]
    rw [List.append_assoc, List.drop_left, List.take_left]

/-- The documented value type of each supported filter key: integer
year, text genre, numeric rating bounds, text search. -/
def wellTypedFilter (e : String × FVal) : Bool :=
  if e.1 = "anio_lectura" then
    match e.2 with | .int _ => true | _ => false
  else if e.1 = "genero" then
    match e.2 with | .str _ => true | _ => false
  else if e.1 = "calificacion_min" then
    match e.2 with | .str _ => false | _ => true
  else if e.1 = "calificacion_max" then
    match e.2 with | .str _ => false | _ => true
  else if e.1 = "search" then
    match e.2 with | .str _ => true | _ => false
  else false

/-- A search value free of the SQL `LIKE` wildcards `%` and `_` (other
entries impose nothing). -/
def noWildFilter (e : String × FVal) : Bool :=
  if e.1 = "search" then
    match e.2 with | .str s => noWild s.data | _ => true
  else true

/-- The specification's reading of one filter entry: exact year, exact
genre, inclusive rating bounds, substring search over title or author
that is case-insensitive for ASCII letters only (`lowerChars` folds
`A`–`Z` and nothing else) — exactly the folding SQL `LIKE` applies, so
non-ASCII letters such as accented ones must match exactly. -/
def specMatch (b : Libro) (e : String × FVal) : Bool :=
  if e.1 = "anio_lectura" then
    match e.2 with
    | .int n => b.anio_lectura == n
    | .rat q => (b.anio_lectura : Rat) == q
    | .str _ => false
  else if e.1 = "genero" then
    match e.2 with | .str s => b.genero == s | _ => false
  else if e.1 = "calificacion_min" then
    match e.2 with
    | .int n => decide ((n : Rat) ≤ b.calificacion)
    | .rat q => decide (q ≤ b.calificacion)
    | .str _ => false
  else if e.1 = "calificacion_max" then
    match e.2 with
    | .int n => decide (b.calificacion ≤ (n : Rat))
    | .rat q => decide (b.calificacion ≤ q)
    | .str _ => false
  else if e.1 = "search" then
    match e.2 with
    | .str s =>
      containsSub (lowerChars s.data) (lowerChars b.titulo.data) ||
        containsSub (lowerChars s.data) (lowerChars b.autor.data)
    | _ => false
  else false

theorem buildConds_cons (e : String × FVal) (rest : List (String × FVal)) :
    buildConds (e :: rest) = buildConds [e] ++ buildConds rest := by
  obtain ⟨k, v⟩ := e
  simp [buildConds]

theorem conds_one (b : Libro) (k : String) (v : FVal)
    (hwt : wellTypedFilter (k, v) = true)
    (hnw : noWildFilter (k, v) = true) :
    (buildConds [(k, v)]).all (condHolds b) = specMatch b (k, v) := by
  by_cases h1 : k = "anio_lectura"
  · subst h1
    cases v with
    | int n => simp [buildConds, condHolds, specMatch]
    | rat q => simp [buildConds, condHolds, specMatch]
    | str s => simp [wellTypedFilter] at hwt
  · by_cases h2 : k = "genero"
    · subst h2
      cases v with
      | str s => simp [buildConds, condHolds, specMatch]
      | int n => simp [wellTypedFilter] at hwt
      | rat q => simp [wellTypedFilter] at hwt
    · by_cases h3 : k = "calificacion_min"
      · subst h3
        cases v with
        | int n => simp [buildConds, condHolds, specMatch]
        | rat q => simp [buildConds, condHolds, specMatch]
        | str s => simp [wellTypedFilter] at hwt
      · by_cases h4 : k = "calificacion_max"
        · subst h4
          cases v with
          | int n => simp [buildConds, condHolds, specMatch]
          | rat q => simp [buildConds, condHolds, specMatch]
          | str s => simp [wellTypedFilter] at hwt
        · by_cases h5 : k = "search"
          · subst h5
            cases v with
            | str s =>
              have hw : noWild s.data = true := by
                simpa [noWildFilter] using hnw
              have hdata : ("%" ++ fvalStr (FVal.str s) ++ "%").data =
                  '%' :: (s.data ++ ['%']) := by
                simp [fvalStr, String.data_append]
              have hlike :
                  condHolds b
                      (Cond.search ("%" ++ fvalStr (FVal.str s) ++ "%")) =
                    (containsSub (lowerChars s.data)
                        (lowerChars b.titulo.data) ||
                      containsSub (lowerChars s.data)
                        (lowerChars b.autor.data)) := by
                show (likeMatch ("%" ++ fvalStr (FVal.str s) ++ "%").data
                    b.titulo.data ||
                  likeMatch ("%" ++ fvalStr (FVal.str s) ++ "%").data
                    b.autor.data) = _
                rw [hdata, likeMatch_substring _ _ hw,
                  likeMatch_substring _ _ hw]
              simp only [buildConds, if_neg h1, if_neg h2, if_neg h3,
                if_neg h4, if_pos rfl, List.all_cons, List.all_nil,
                Bool.and_true]
              simp [specMatch, h1, h2, h3, h4]
              exact hlike
            | int n => simp [wellTypedFilter, h1, h2, h3, h4] at hwt
            | rat q => simp [wellTypedFilter, h1, h2, h3, h4] at hwt
          · simp [wellTypedFilter, h1, h2, h3, h4, h5] at hwt

theorem all_buildConds (b : Libro) : ∀ fs : List (String × FVal),
    (∀ e ∈ fs, wellTypedFilter e = true) →
    (∀ e ∈ fs, noWildFilter e = true) →
    ((buildConds fs).all (condHolds b) = fs.all (specMatch b)) := by
  intro fs
  induction fs with
  | nil => intro _ _; rfl
  | cons e rest ih =>
    intro hwt hnw
    rw [buildConds_cons, List.all_append, List.all_cons,
      conds_one b e.1 e.2 (by simpa using hwt e (by simp))
        (by simpa using hnw e (by simp)),
      ih (fun x hx => hwt x (List.mem_cons_of_mem e hx))
        (fun x hx => hnw x (List.mem_cons_of_mem e hx))]

/-- C2 (amended): for every filter dictionary drawn from the five
supported keys with their documented value types, and whose search
value (if any) contains no SQL `LIKE` wildcard character (`%` or `_`),
`obtener_libros` returns exactly the books satisfying the conjunction
of the filters — year equality, genre equality, inclusive rating
bounds, and substring search over title or author that is
case-insensitive for ASCII letters only (non-ASCII letters must match
exactly, since SQL `LIKE` folds only ASCII) — ordered by read-date
descending; with no filter it returns all books.  (A search value
containing `%` or `_` is instead interpreted as a `LIKE` pattern, and
non-ASCII case folding is not performed: see the counterexample for
both divergences from the original claim.) -/
theorem obtener_libros_filter_spec (db : List Libro)
    (fs : List (String × FVal))
    (hwt : ∀ e ∈ fs, wellTypedFilter e = true)
    (hnw : ∀ e ∈ fs, noWildFilter e = true) :
    (obtener_libros db fs).Perm
      (db.filter fun b => fs.all (specMatch b)) ∧
    List.Sorted fechaDesc (obtener_libros db fs) ∧
    (obtener_libros db []).Perm db := by
  refine ⟨?_, ?_, ?_⟩
  · unfold obtener_libros
    rw [List.filter_congr (fun b _ => all_buildConds b fs hwt hnw)]
    exact List.perm_insertionSort _ _
  · unfold obtener_libros
    exact List.sorted_insertionSort _ _
  · unfold obtener_libros
    have hid : (db.filter fun b => (buildConds []).all (condHolds b)) = db := by
      simp [buildConds]
    rw [hid]
    exact List.perm_insertionSort _ _

/-- The stored book of the C2 counterexample: its title `axb` does not
contain the search text `a_b` as a substring. -/
def c2Book : Libro :=
  { id := 1
    titulo := "axb"
    autor := "Nadie"
    genero := "Novela"
    subgenero := ""
    anio_lectura := 2024
    fecha_lectura := "2024-02-02"
    calificacion := 4
    paginas := 10
    editorial := ""
    comentario := ""
    fecha_creacion := "t"
    fecha_actualizacion := "t" }

/-- The stored book of the second C2 counterexample: its title `ÉPOCA`
is the letterwise uppercase of the search text `época`. -/
def c2BookE : Libro :=
  { id := 3
    titulo := "ÉPOCA"
    autor := "Nadie"
    genero := "Novela"
    subgenero := ""
    anio_lectura := 2024
    fecha_lectura := "2024-03-03"
    calificacion := 4
    paginas := 10
    editorial := ""
    comentario := ""
    fecha_creacion := "t"
    fecha_actualizacion := "t" }

/-- C2 counterexample, both divergences of the code from the claimed
"case-insensitive substring search".  (a) Wildcards: with the
well-typed filter `{'search': 'a_b'}`, the text `a_b` is no substring
of the title `axb` or its author, yet the code returns that book — `_`
is a SQL `LIKE` one-character wildcard.  (b) Non-ASCII case: the
wildcard-free search `época` is letter for letter the lowercase of the
stored title `ÉPOCA` (every position is equal or differs by the
uppercase-to-lowercase offset 32, which covers `É` → `é`, U+00C9 →
U+00E9), so under case-insensitive substring semantics the book
matches, yet the code returns nothing — SQL `LIKE` folds only ASCII
letters — while the exact-case search `ÉPOCA` does return the book. -/
theorem search_substring_semantics_counterexample :
    (wellTypedFilter ("search", FVal.str "a_b") = true ∧
     specMatch c2Book ("search", FVal.str "a_b") = false ∧
     obtener_libros [c2Book] [("search", FVal.str "a_b")] = [c2Book]) ∧
    (wellTypedFilter ("search", FVal.str "época") = true ∧
     noWild "época".data = true ∧
     "ÉPOCA".data.length = "época".data.length ∧
     (∀ p ∈ "ÉPOCA".data.zip "época".data,
       p.1.toNat = p.2.toNat ∨ p.1.toNat + 32 = p.2.toNat) ∧
     specMatch c2BookE ("search", FVal.str "época") = false ∧
     obtener_libros [c2BookE] [("search", FVal.str "época")] = [] ∧
     obtener_libros [c2BookE] [("search", FVal.str "ÉPOCA")] =
       [c2BookE]) := by
  constructor
  · refine ⟨by decide, by decide, ?_⟩
    have hb : buildConds [("search", FVal.str "a_b")] =
        [Cond.search "%a_b%"] := by decide
    unfold obtener_libros
    rw [hb]
    have ht : likeMatch "%a_b%".data c2Book.titulo.data = true := by
      simp [likeMatch, c2Book]
    simp [condHolds, ht, List.insertionSort]
  · refine ⟨by decide, by decide, by decide, by decide, by decide, ?_, ?_⟩
    · have hb : buildConds [("search", FVal.str "época")] =
          [Cond.search "%época%"] := by decide
      unfold obtener_libros
      rw [hb]
      have ht : likeMatch "%época%".data c2BookE.titulo.data = false := by
        simp [likeMatch, c2BookE]
      have ha : likeMatch "%época%".data c2BookE.autor.data = false := by
        simp [likeMatch, c2BookE]
      simp [condHolds, ht, ha]
    · have hb : buildConds [("search", FVal.str "ÉPOCA")] =
          [Cond.search "%ÉPOCA%"] := by decide
      unfold obtener_libros
      rw [hb]
      have ht : likeMatch "%ÉPOCA%".data c2BookE.titulo.data = true := by
        simp [likeMatch, c2BookE]
      simp [condHolds, ht, List.insertionSort]

/-- The second, non-matching book of the C2 witness collection. -/
def c2BookB : Libro :=
  { c2Book with
    id := 2
    titulo := "Otro"
    genero := "Ensayo"
    calificacion := 2
    fecha_lectura := "2024-05-05" }

/-- The two-book collection of the C2 witness. -/
def c2DbW : List Libro := [c2Book, c2BookB]

/-- The C2 witness filter: genre `Novela` and minimum rating 4. -/
def c2FsW : List (String × FVal) :=
  [("genero", FVal.str "Novela"), ("calificacion_min", FVal.int 4)]

/-- C2 witness: the amended theorem applied to a concrete two-book
collection and a concrete two-entry filter. -/
theorem obtener_libros_filter_spec_witness :
    (obtener_libros c2DbW c2FsW).Perm
      (c2DbW.filter fun b => c2FsW.all (specMatch b)) ∧
    List.Sorted fechaDesc (obtener_libros c2DbW c2FsW) ∧
    (obtener_libros c2DbW []).Perm c2DbW :=
  obtener_libros_filter_spec c2DbW c2FsW (by decide) (by decide)

theorem mem_dedupFirstAux [DecidableEq α] (x : α) :
    ∀ (l seen : List α), x ∈ dedupFirstAux seen l ↔ x ∈ l ∧ x ∉ seen := by
  intro l
  induction l with
  | nil => intro seen; simp [dedupFirstAux]
  | cons a l ih =>
    intro seen
    by_cases h : a ∈ seen
    · simp only [dedupFirstAux, if_pos h, ih, List.mem_cons]
      constructor
      · rintro ⟨hx, hs⟩
        exact ⟨Or.inr hx, hs⟩
      · rintro ⟨hax, hs⟩
        rcases hax with rfl | hx
        · exact absurd h hs
        · exact ⟨hx, hs⟩
    · simp only [dedupFirstAux, if_neg h, List.mem_cons, ih]
      constructor
      · rintro (rfl | ⟨hx, hs⟩)
        · exact ⟨Or.inl rfl, h⟩
        · exact ⟨Or.inr hx, fun hxs => hs (Or.inr hxs)⟩
      · rintro ⟨hax, hs⟩
        by_cases hxa : x = a
        · exact Or.inl hxa
        · right
          rcases hax with rfl | hx
          · exact absurd rfl hxa
          · refine ⟨hx, ?_⟩
            rintro (rfl | hxs)
            · exact hxa rfl
            · exact hs hxs

theorem mem_dedupFirst [DecidableEq α] (x : α) (l : List α) :
    x ∈ dedupFirst l ↔ x ∈ l := by
  rw [dedupFirst, mem_dedupFirstAux]
  simp

theorem nodup_dedupFirstAux [DecidableEq α] :
    ∀ (l seen : List α), (dedupFirstAux seen l).Nodup := by
  intro l
  induction l with
  | nil => intro seen; simp [dedupFirstAux]
  | cons a l ih =>
    intro seen
    by_cases h : a ∈ seen
    · simpa [dedupFirstAux, h] using ih seen
    · simp only [dedupFirstAux, if_neg h, List.nodup_cons]
      refine ⟨?_, ih (a :: seen)⟩
      intro hmem
      exact ((mem_dedupFirstAux a l (a :: seen)).mp hmem).2
        (List.mem_cons_self a seen)

theorem pairs_snd_eq [DecidableEq β] (gs : List β) (cnt : β → Nat) :
    ∀ p ∈ gs.map (fun g => (g, cnt g)), p.2 = cnt p.1 := by
  intro p hp
  obtain ⟨g, _, rfl⟩ := List.mem_map.mp hp
  rfl

/-- The book of the C3 singleton example: rated 5, read in 2024,
genre `Terror`. -/
def c3Book : Libro :=
  { id := 1
    titulo := "It"
    autor := "Stephen King"
    genero := "Terror"
    subgenero := ""
    anio_lectura := 2024
    fecha_lectura := "2024-05-01"
    calificacion := 5
    paginas := 1000
    editorial := ""
    comentario := ""
    fecha_creacion := "t"
    fecha_actualizacion := "t" }

/-- C3: statistics on the empty collection are total 0, average 0 (not
null, thanks to the `or 0` fallback), empty year and genre breakdowns;
on the single book rated 5 read in 2024 with genre `Terror` they are
total 1, average 5, year breakdown `[(2024, 1)]` and genre breakdown
`[("Terror", 1)]`; and in general the total is the collection size, the
year breakdown is ordered descending by year with correct counts, and
the genre breakdown is the top 5 genres by frequency: ordered by
descending count, correct counts, at most five entries (exactly five
when at least five distinct genres exist), and no stored genre left out
has a strictly greater count than any listed one. -/
theorem obtener_estadisticas_spec :
    obtener_estadisticas [] =
      { total_libros := 0
        libros_por_anio := []
        promedio_calificacion := 0
        generos_populares := [] } ∧
    obtener_estadisticas [c3Book] =
      { total_libros := 1
        libros_por_anio := [(2024, 1)]
        promedio_calificacion := 5
        generos_populares := [("Terror", 1)] } ∧
    ∀ db : List Libro,
      (obtener_estadisticas db).total_libros = db.length ∧
      List.Sorted yearDesc (obtener_estadisticas db).libros_por_anio ∧
      List.Sorted countDesc (obtener_estadisticas db).generos_populares ∧
      (obtener_estadisticas db).generos_populares.length =
        min 5 (dedupFirst (db.map Libro.genero)).length ∧
      (∀ p ∈ (obtener_estadisticas db).libros_por_anio,
        p.2 = db.countP fun b => b.anio_lectura == p.1) ∧
      (∀ p ∈ (obtener_estadisticas db).generos_populares,
        p.2 = db.countP fun b => b.genero == p.1) ∧
      (∀ g, g ∈ db.map Libro.genero →
        (∀ p ∈ (obtener_estadisticas db).generos_populares, p.1 ≠ g) →
        ∀ p ∈ (obtener_estadisticas db).generos_populares,
          db.countP (fun b => b.genero == g) ≤ p.2) := by
  refine ⟨by decide, ?_, ?_⟩
  · simp [obtener_estadisticas, dedupFirst, dedupFirstAux,
      List.insertionSort, List.orderedInsert, c3Book]
  · intro db
    refine ⟨rfl, List.sorted_insertionSort _ _, ?_, ?_, ?_, ?_, ?_⟩
    · exact List.Pairwise.sublist (List.take_sublist 5 _)
        (List.sorted_insertionSort _ _)
    · simp only [obtener_estadisticas, List.length_take,
        (List.perm_insertionSort countDesc _).length_eq, List.length_map]
    · intro p hp
      simp only [obtener_estadisticas] at hp
      exact pairs_snd_eq _ _ p
        ((List.perm_insertionSort yearDesc _).mem_iff.mp hp)
    · intro p hp
      simp only [obtener_estadisticas] at hp
      exact pairs_snd_eq _ _ p
        ((List.perm_insertionSort countDesc _).mem_iff.mp
          (List.take_subset 5 _ hp))
    · intro g hg hout p hp
      simp only [obtener_estadisticas] at hout hp
      set pairs := (dedupFirst (db.map Libro.genero)).map
        (fun g => (g, db.countP fun b => b.genero == g)) with hpairs
      set spairs := List.insertionSort countDesc pairs with hspairs
      have hmem : (g, db.countP fun b => b.genero == g) ∈ spairs := by
        rw [hspairs, (List.perm_insertionSort countDesc pairs).mem_iff,
          hpairs]
        exact List.mem_map.mpr
          ⟨g, (mem_dedupFirst g _).mpr hg, rfl⟩
      have hsplit : spairs = spairs.take 5 ++ spairs.drop 5 :=
        (List.take_append_drop 5 spairs).symm
      rcases List.mem_append.mp (hsplit ▸ hmem) with hin | hin
      · exact absurd rfl (hout _ hin)
      · have hsor : List.Sorted countDesc (spairs.take 5 ++ spairs.drop 5) := by
          rw [← hsplit]
          exact List.sorted_insertionSort _ _
        exact (List.pairwise_append.mp hsor).2.2 p hp _ hin

/-- C3 witness: the general conjunct applied to the singleton
collection — the year and genre entries carry the correct counts. -/
theorem obtener_estadisticas_spec_witness :
    obtener_estadisticas [] =
      { total_libros := 0
        libros_por_anio := []
        promedio_calificacion := 0
        generos_populares := [] } ∧
    (2024, 1).2 = [c3Book].countP (fun b => b.anio_lectura == (2024, 1).1) ∧
    ("Terror", 1).2 = [c3Book].countP fun b => b.genero == ("Terror", 1).1 := by
  have h := obtener_estadisticas_spec
  exact ⟨h.1,
    (h.2.2 [c3Book]).2.2.2.2.1 (2024, 1) (by decide),
    (h.2.2 [c3Book]).2.2.2.2.2.1 ("Terror", 1) (by decide)⟩

theorem hexVal_hexDigit : ∀ n, n < 16 → hexVal (hexDigit n) = some n := by
  decide

theorem parseStr_quote (rest : List Char) :
    parseStr ('"' :: rest) = some ([], rest) := by
  rw [parseStr.eq_def]
  simp

theorem parseStr_esc (e : Char) (rest : List Char) (he : e ≠ 'u') :
    parseStr ('\\' :: e :: rest) =
      match escDecode e with
      | some d => (parseStr rest).map fun p => (d :: p.1, p.2)
      | none => none := by
  rw [parseStr.eq_def]
  simp [he]

theorem parseStr_esc_u (h1 h2 h3 h4 : Char) (rest : List Char) :
    parseStr ('\\' :: 'u' :: h1 :: h2 :: h3 :: h4 :: rest) =
      match hexVal h1, hexVal h2, hexVal h3, hexVal h4 with
      | some a, some b, some c1, some d =>
        if ((a * 16 + b) * 16 + c1) * 16 + d < 55296 then
          (parseStr rest).map fun p =>
            (Char.ofNat (((a * 16 + b) * 16 + c1) * 16 + d) :: p.1, p.2)
        else none
      | _, _, _, _ => none := by
  rw [parseStr.eq_def]
  simp

theorem parseStr_plain (c : Char) (rest : List Char) (h1 : c ≠ '"')
    (h2 : c ≠ '\\') (h3 : ¬c.toNat < 32) :
    parseStr (c :: rest) = (parseStr rest).map fun p => (c :: p.1, p.2) := by
  rw [parseStr.eq_def]
  simp [h1, h2, h3]

/-- Decoding inverts the character-level encoding: parsing an encoded
string body up to its closing quote returns the original characters and
the untouched remainder. -/
theorem parseStr_encode : ∀ (cs rest : List Char),
    parseStr (encodeStr cs ++ '"' :: rest) = some (cs, rest) := by
  intro cs
  induction cs with
  | nil =>
    intro rest
    simp [encodeStr, parseStr_quote]
  | cons c cs ih =>
    intro rest
    rw [encodeStr, List.append_assoc]
    by_cases h1 : c = '"'
    · subst h1
      simp [escapeChar]
      rw [parseStr_esc _ _ (by decide)]
      simp [escDecode, ih]
    · by_cases h2 : c = '\\'
      · subst h2
        simp [escapeChar]
        rw [parseStr_esc _ _ (by decide)]
        simp [escDecode, ih]
      · by_cases h3 : c = '\x08'
        · subst h3
          simp [escapeChar]
          rw [parseStr_esc _ _ (by decide)]
          simp [escDecode, ih]
        · by_cases h4 : c = '\x0c'
          · subst h4
            simp [escapeChar]
            rw [parseStr_esc _ _ (by decide)]
            simp [escDecode, ih]
          · by_cases h5 : c = '\n'
            · subst h5
              simp [escapeChar]
              rw [parseStr_esc _ _ (by decide)]
              simp [escDecode, ih]
            · by_cases h6 : c = '\r'
              · subst h6
                simp [escapeChar]
                rw [parseStr_esc _ _ (by decide)]
                simp [escDecode, ih]
              · by_cases h7 : c = '\t'
                · subst h7
                  simp [escapeChar]
                  rw [parseStr_esc _ _ (by decide)]
                  simp [escDecode, ih]
                · by_cases h8 : c.toNat < 32
                  · have e0 : hexVal '0' = some 0 := by decide
                    have e1 : hexVal (hexDigit (c.toNat / 16)) =
                        some (c.toNat / 16) := hexVal_hexDigit _ (by omega)
                    have e2 : hexVal (hexDigit (c.toNat % 16)) =
                        some (c.toNat % 16) := hexVal_hexDigit _ (by omega)
                    have hn : c.toNat / 16 * 16 + c.toNat % 16 =
                        c.toNat := by omega
                    have h55 : c.toNat < 55296 := by omega
                    simp [escapeChar, h1, h2, h3, h4, h5, h6, h7, h8]
                    rw [parseStr_esc_u]
                    simp [e0, e1, e2, hn, h55, ih, Char.ofNat_toNat]
                  · simp [escapeChar, h1, h2, h3, h4, h5, h6, h7, h8]
                    rw [parseStr_plain c _ h1 h2 h8]
                    simp [ih]

theorem skipWs_dumpsItems (k v : String) (m : List (String × String))
    (x : List Char) :
    skipWs (dumpsItems ((k, v) :: m) ++ x) =
      dumpsItems ((k, v) :: m) ++ x := by
  cases m <;> simp [dumpsItems, itemChars, skipWs]

theorem length_le_dumpsItems : ∀ m : List (String × String),
    m.length ≤ (dumpsItems m).length := by
  intro m
  induction m with
  | nil => simp [dumpsItems]
  | cons e m ih =>
    obtain ⟨k, v⟩ := e
    cases m with
    | nil => simp [dumpsItems, itemChars]
    | cons e' m' =>
      simp only [dumpsItems, itemChars, List.length_append,
        List.length_cons] at ih ⊢
      omega

/-- Parsing inverts the member-level encoding, given fuel at least the
number of members. -/
theorem parseMembers_dumps :
    ∀ (m : List (String × String)) (fuel : Nat) (rest : List Char),
      m ≠ [] → m.length ≤ fuel →
      parseMembers fuel (dumpsItems m ++ '}' :: rest) = some (m, rest) := by
  intro m
  induction m with
  | nil => intro fuel rest h _; exact absurd rfl h
  | cons e m ih =>
    obtain ⟨k, v⟩ := e
    intro fuel rest _ hlen
    cases fuel with
    | zero => simp at hlen
    | succ f =>
      cases m with
      | nil =>
        simp [dumpsItems, itemChars, parseMembers, parseStr_encode, skipWs]
      | cons e' m' =>
        obtain ⟨k', v'⟩ := e'
        have hih := ih f rest (by simp)
          (by simp at hlen ⊢; omega)
        have hsw := skipWs_dumpsItems k' v' m' ('}' :: rest)
        simp only [dumpsItems, itemChars, List.cons_append,
          List.append_assoc, List.nil_append] at hih hsw ⊢
        simp [parseMembers, parseStr_encode, skipWs, hsw, hih]

theorem loadsTail_dumps (m : List (String × String)) (hm : m ≠ []) :
    loadsTail (dumpsItems m ++ '}' :: []) = some m := by
  have hfuel : m.length ≤ (dumpsItems m ++ '}' :: []).length + 1 := by
    have h := length_le_dumpsItems m
    have h2 : (dumpsItems m ++ '}' :: []).length =
        (dumpsItems m).length + 1 := by simp
    omega
  simp only [loadsTail]
  rw [parseMembers_dumps m ((dumpsItems m ++ '}' :: []).length + 1) []
    hm hfuel]
  simp [skipWs]

/-- C6 key fact: serialization followed by deserialization is the
identity on preference mappings. -/
theorem loads_dumps : ∀ m : List (String × String),
    loads (dumps m) = some m := by
  intro m
  cases m with
  | nil => decide
  | cons e m' =>
    obtain ⟨k, v⟩ := e
    have hhead : ∃ t, dumpsItems ((k, v) :: m') = '"' :: t := by
      cases m' <;> exact ⟨_, rfl⟩
    obtain ⟨t, ht⟩ := hhead
    have hd : (dumps ((k, v) :: m')).data =
        '{' :: (dumpsItems ((k, v) :: m') ++ '}' :: []) := rfl
    simp only [loads, hd]
    rw [show skipWs ('{' :: (dumpsItems ((k, v) :: m') ++ '}' :: [])) =
        '{' :: (dumpsItems ((k, v) :: m') ++ '}' :: []) from by
      simp [skipWs]]
    show loadsBody (skipWs (dumpsItems ((k, v) :: m') ++ '}' :: [])) =
      some ((k, v) :: m')
    rw [skipWs_dumpsItems k v m' ('}' :: []), ht]
    show loadsTail (('"' :: t) ++ '}' :: []) = some ((k, v) :: m')
    rw [← ht]
    exact loadsTail_dumps ((k, v) :: m') (by simp)

/-- C6: user preferences round-trip losslessly — serialization followed
by deserialization is the identity on preference mappings, so updating
the singleton profile row with any preferences mapping and then reading
the profile back yields that mapping exactly (even preserving key
order, which is stronger than the claimed equality modulo ordering). -/
theorem preferencias_roundtrip :
    (∀ m : List (String × String), loads (dumps m) = some m) ∧
    ∀ (u : Usuario) (d : UsuarioData) (now : String), u.id = d.id →
      obtener_usuario (actualizar_usuario [u] d now).2 =
        some { id := u.id
               nombre := d.nombre
               email := d.email
               avatar := d.avatar.getD "default_avatar.png"
               preferencias := d.preferencias.getD []
               fecha_creacion := u.fecha_creacion
               fecha_actualizacion := now } := by
  refine ⟨loads_dumps, ?_⟩
  intro u d now hid
  simp [actualizar_usuario, hid, obtener_usuario, loads_dumps]

/-- The stored profile row of the C6 witness. -/
def c6User : Usuario :=
  { id := 1
    nombre := "Lector"
    email := "lector@example.com"
    avatar := "default_avatar.png"
    preferencias := "{}"
    fecha_creacion := "t0"
    fecha_actualizacion := "t0" }

/-- The C6 witness update: preferences `{"theme": "dark"}`. -/
def c6Data : UsuarioData :=
  { id := 1
    nombre := "Seb"
    email := "seb@example.com"
    preferencias := some [("theme", "dark")] }

/-- C6 witness: updating the profile with `{"theme": "dark"}` and
reading it back yields exactly that mapping. -/
theorem preferencias_roundtrip_witness :
    obtener_usuario (actualizar_usuario [c6User] c6Data "t1").2 =
      some { id := c6User.id
             nombre := c6Data.nombre
             email := c6Data.email
             avatar := c6Data.avatar.getD "default_avatar.png"
             preferencias := c6Data.preferencias.getD []
             fecha_creacion := c6User.fecha_creacion
             fecha_actualizacion := "t1" } :=
  preferencias_roundtrip.2 c6User c6Data "t1" rfl

end Registro

